import Mathlib

/-!
Verification of the Waveform page-context audio engine
(src/audio-injector.js, the current secure-channel variant) and of its
content-script relay (the secure-channel variant of the content script).

The JavaScript is shallowly embedded: the engine globals become an
explicit state record, the discovered DOM media elements become list
entries, and host-platform primitives (audio contexts, gain nodes,
timers, JSON decoding) are modelled by the data the engine observes of
them.  Volumes and gain values are exact rationals.
-/

namespace Waveform

/-- Math.min(1, Math.max(0, v)), the native-volume clamp used by
setHTML5Volume. -/
def jsClamp01 (v : ℚ) : ℚ := min 1 (max 0 v)

/-- One discovered HTMLMediaElement, as the engine sees it.
volume is the native volume field; routed models
mediaSourceNodes.has(el); routable is the environment fact of whether
createMediaElementSource would succeed for this element (it throws for
cross-origin media or an element already consumed by another graph);
sourcesCreated counts how many element-source nodes were ever created
for this element. -/
structure MElem where
  volume : ℚ
  routed : Bool
  routable : Bool
  sourcesCreated : Nat
deriving Repr, DecidableEq

/-- The engine globals of audio-injector.js.  sharedGain is the value of
the shared boost gain (none models a null sharedGain variable);
sharedClosed models sharedContext.state being the closed state;
ctxAvailable is the environment fact of whether an AudioContext
constructor exists at all; contextGains models the gainNodes map as a
list of (context id, context is closed, gain value) entries. -/
structure Globals where
  currentVolume : ℚ
  currentMethod : String
  persistVolume : Bool
  ctxAvailable : Bool
  sharedGain : Option ℚ
  sharedClosed : Bool
  contextGains : List (Nat × Bool × ℚ)
deriving Repr, DecidableEq

/-- Engine state: globals plus the discovered media elements (the result
of document.querySelectorAll for audio and video tags, in order). -/
structure EngineState where
  g : Globals
  media : List MElem
deriving Repr, DecidableEq

/-- getSharedContext of audio-injector.js: lazily create the shared
boost context and gain, recreating them when previously closed; the
gain is created with gain.value = currentVolume.  The returned Bool is
the truthiness of the returned context.  (With ctxAvailable fixed per
page load, a non-null shared context can only exist when a constructor
exists, so the returned truthiness coincides with the formula used
here.) -/
def getSharedContext (g : Globals) : Globals × Bool :=
  let g1 :=
    if g.sharedGain.isNone || g.sharedClosed then
      if g.ctxAvailable then
        { g with sharedGain := some g.currentVolume, sharedClosed := false }
      else g
    else g
  (g1, g1.sharedGain.isSome && !g1.sharedClosed)

/-- routeMediaThroughWebAudio of audio-injector.js.  On an element that
is already routed it returns true immediately; otherwise it asks for
the shared context (failing when none is available), then creates an
element source (which throws, caught and turned into false, when the
element is not routable), records the association, connects it into the
shared gain and forces the native volume to 1.  The asynchronous
context.resume() call has no observable effect on this state. -/
def routeMediaThroughWebAudio (g : Globals) (m : MElem) : Globals × MElem × Bool :=
  if m.routed then (g, m, true)
  else
    let r := getSharedContext g
    if !r.2 then (r.1, m, false)
    else if m.routable then
      (r.1, { m with routed := true, sourcesCreated := m.sourcesCreated + 1, volume := 1 }, true)
    else (r.1, m, false)

/-- The per-element body of setHTML5Volume of audio-injector.js
(processMediaElement only attaches listeners and does not change any
state modelled here). -/
def setHTML5VolumeElem (volume : ℚ) (g : Globals) (m : MElem) : Globals × MElem :=
  if m.routed then
    if g.currentMethod = "html5" then (g, { m with volume := jsClamp01 volume })
    else (g, { m with volume := 1 })
  else if volume > 1 ∨ g.currentMethod = "webaudio" then
    let r := routeMediaThroughWebAudio g m
    if r.2.2 then (r.1, r.2.1) else (r.1, { r.2.1 with volume := 1 })
  else (g, { m with volume := jsClamp01 volume })

/-- setHTML5Volume iterates the per-element body over all discovered
media elements, threading the globals (the shared context may be
created mid-loop). -/
def setHTML5VolumeList (volume : ℚ) : Globals → List MElem → Globals × List MElem
  | g, [] => (g, [])
  | g, m :: rest =>
    let p := setHTML5VolumeElem volume g m
    let q := setHTML5VolumeList volume p.1 rest
    (q.1, p.2 :: q.2)

/-- setHTML5Volume of audio-injector.js, at the engine-state level. -/
def setHTML5Volume (volume : ℚ) (s : EngineState) : EngineState :=
  let p := setHTML5VolumeList volume s.g s.media
  { g := p.1, media := p.2 }

/-- setWebAudioVolume of audio-injector.js: iterate the gainNodes map,
deleting entries whose context is gone or closed and writing the new
value into the rest; finally write the shared gain if it exists. -/
def setWebAudioVolume (volume : ℚ) (g : Globals) : Globals :=
  { g with
    contextGains := g.contextGains.filterMap
      (fun e => if e.2.1 then none else some (e.1, e.2.1, volume)),
    sharedGain := g.sharedGain.map (fun _ => volume) }

/-- setVolume of audio-injector.js (secure-channel variant).  The
isFinite guard is vacuous over exact rationals.  The level is clamped
into [0, 100] on entry and the method string is normalized to
"both" when invalid; then the two appliers run in a per-method order:
webaudio runs setHTML5Volume before setWebAudioVolume, html5 first
neutralizes all graph gains to 1, both runs setWebAudioVolume then
setHTML5Volume. -/
def setVolume (volume : ℚ) (method : String) (s : EngineState) : EngineState :=
  let v := max 0 (min 100 volume)
  let meth := if method = "webaudio" ∨ method = "html5" ∨ method = "both" then method else "both"
  let s0 : EngineState := { s with g := { s.g with currentVolume := v, currentMethod := meth } }
  if meth = "webaudio" then
    let s1 := setHTML5Volume v s0
    { s1 with g := setWebAudioVolume v s1.g }
  else if meth = "html5" then
    setHTML5Volume v { s0 with g := setWebAudioVolume 1 s0.g }
  else
    setHTML5Volume v { s0 with g := setWebAudioVolume v s0.g }

/-- Whether a routing attempt would obtain a usable shared context:
this is exactly the Bool that getSharedContext returns, extracted as a
pure predicate of the pre-state (see getSharedContext_snd). -/
def sharedOkB (g : Globals) : Bool :=
  if g.sharedGain.isNone || g.sharedClosed then g.ctxAvailable else true

/-- Derived per-element outcome of one setHTML5Volume pass, used to
state the volume-policy theorems: ok is the (loop-invariant) fact of
whether a routing attempt can obtain a shared context. -/
def elemResult (volume : ℚ) (method : String) (ok : Bool) (m : MElem) : MElem :=
  if m.routed then
    if method = "html5" then { m with volume := jsClamp01 volume }
    else { m with volume := 1 }
  else if volume > 1 ∨ method = "webaudio" then
    if ok && m.routable then
      { m with routed := true, sourcesCreated := m.sourcesCreated + 1, volume := 1 }
    else { m with volume := 1 }
  else { m with volume := jsClamp01 volume }

/-! Graph wiring model: the gainNodes tracking map, the wrapped
AudioNode connect primitive and context lifecycle, with gain nodes kept
in a separate value store so that writes to a gain are observable. -/

/-- Lifecycle states an audio-graph context reports. -/
inductive CtxLife where
  | running
  | suspended
  | closed
deriving Repr, DecidableEq

/-- The graph side of the engine: ctxLife records each context id and
its lifecycle state, gainNodesG models the gainNodes map (context id to
gain node id), gainVal is the store of gain node values, sharedGainVal
the shared boost gain. -/
structure GraphModel where
  ctxLife : List (Nat × CtxLife)
  gainNodesG : List (Nat × Nat)
  gainVal : List (Nat × ℚ)
  sharedGainVal : Option ℚ
deriving Repr, DecidableEq

/-- Lifecycle of a context id, none when the id is unknown. -/
def lifeOf (m : GraphModel) (c : Nat) : Option CtxLife :=
  (m.ctxLife.find? (fun e => e.1 = c)).map (fun e => e.2)

/-- The condition of the deletion guard in setWebAudioVolume and
pruneClosedContexts: the JavaScript tests (!ctx || ctx.state ===
closed), so an unknown context counts as gone. -/
def ctxGone (m : GraphModel) (c : Nat) : Bool :=
  match lifeOf m c with
  | none => true
  | some l => l = CtxLife.closed

/-- The statechange listener installed by setupAudioContext: when the
context reports the closed state, delete its gainNodes association. -/
def statechangeCleanup (c : Nat) (m : GraphModel) : GraphModel :=
  if lifeOf m c = some CtxLife.closed then
    { m with gainNodesG := m.gainNodesG.filter (fun e => e.1 ≠ c) }
  else m

/-- A context transitions to a new lifecycle state, which fires the
statechange listener of setupAudioContext. -/
def transitionCtx (c : Nat) (l : CtxLife) (m : GraphModel) : GraphModel :=
  statechangeCleanup c
    { m with ctxLife := m.ctxLife.map (fun e => if e.1 = c then (e.1, l) else e) }

/-- setWebAudioVolume of audio-injector.js on the graph side: entries
whose context is gone or closed are deleted without touching their
gain; every remaining gain receives the new value, as does the shared
gain when present. -/
def setWebAudioVolumeG (v : ℚ) (m : GraphModel) : GraphModel :=
  let keep := m.gainNodesG.filter (fun e => !ctxGone m e.1)
  { m with
    gainNodesG := keep,
    gainVal := m.gainVal.map (fun gv => if keep.any (fun e => e.2 = gv.1) then (gv.1, v) else gv),
    sharedGainVal := m.sharedGainVal.map (fun _ => v) }

/-- pruneClosedContexts of audio-injector.js. -/
def pruneClosedContexts (m : GraphModel) : GraphModel :=
  { m with gainNodesG := m.gainNodesG.filter (fun e => !ctxGone m e.1) }

/-- Graph-volume operations that can run after a context closes. -/
inductive GOp where
  | setVol (v : ℚ)
  | prune
deriving Repr

/-- Apply one graph operation. -/
def applyGOp (m : GraphModel) : GOp → GraphModel
  | GOp.setVol v => setWebAudioVolumeG v m
  | GOp.prune => pruneClosedContexts m

/-- Value held by a gain node id in the store. -/
def lookupVal (l : List (Nat × ℚ)) (k : Nat) : Option ℚ :=
  (l.find? (fun e => e.1 = k)).map (fun e => e.2)

/-- An audio node as the wrapped connect primitive sees it: an
identity, the context it belongs to, and whether it is an
AudioDestinationNode. -/
structure ANode where
  nid : Nat
  ctxId : Nat
  isDest : Bool
deriving Repr, DecidableEq

/-- gainNodes lookup by context id (gainNodes.get(ctx)). -/
def lookupGainNode (gains : List (Nat × Nat)) (c : Nat) : Option Nat :=
  (gains.find? (fun e => e.1 = c)).map (fun e => e.2)

/-- The wrapped AudioNode.prototype.connect of audio-injector.js,
returning the node id actually connected to: a connect aimed at an
AudioDestinationNode is redirected to the gain tracked for the context
of the calling node, when that gain exists and the caller is not the
gain itself. -/
def connectTarget (gains : List (Nat × Nat)) (self dest : ANode) : Nat :=
  if dest.isDest then
    match lookupGainNode gains self.ctxId with
    | some gn => if self.nid = gn then dest.nid else gn
    | none => dest.nid
  else dest.nid

/-! Debounce timer model for scheduleAudioStateUpdate and
scheduleHTML5VolumeApply.  The pending flag models the timer variable
being non-null; the outstanding count models how many setTimeout
callbacks are scheduled but not yet fired. -/

/-- The two debounce timers of audio-injector.js. -/
structure Timers where
  stateBroadcastTimer : Bool
  stateOutstanding : Nat
  html5ApplyTimer : Bool
  html5Outstanding : Nat
deriving Repr, DecidableEq

/-- Timer state at engine load: both timer variables are null. -/
def initTimers : Timers :=
  { stateBroadcastTimer := false, stateOutstanding := 0
    html5ApplyTimer := false, html5Outstanding := 0 }

/-- Scheduling requests that deferred work may issue while running. -/
inductive TOp where
  | schedState
  | schedHtml
deriving Repr, DecidableEq

/-- scheduleAudioStateUpdate: a no-op while the timer variable is
non-null, otherwise arm one timeout. -/
def schedStateStep (t : Timers) : Timers :=
  if t.stateBroadcastTimer then t
  else { t with stateBroadcastTimer := true, stateOutstanding := t.stateOutstanding + 1 }

/-- scheduleHTML5VolumeApply: a no-op while the timer variable is
non-null, otherwise arm one timeout. -/
def schedHtmlStep (t : Timers) : Timers :=
  if t.html5ApplyTimer then t
  else { t with html5ApplyTimer := true, html5Outstanding := t.html5Outstanding + 1 }

/-- Run a piece of deferred work, modelled by the scheduling requests
it issues (the state-timer body broadcasts state; the html5-timer body
reapplies the volume, which can re-arm the state timer through
routeMediaThroughWebAudio). -/
def runWork (w : List TOp) (t : Timers) : Timers :=
  w.foldl (fun t op => match op with
    | TOp.schedState => schedStateStep t
    | TOp.schedHtml => schedHtmlStep t) t

/-- Events of the single-threaded timer trace: a schedule request, or a
timeout firing whose callback first nulls the timer variable and then
runs the deferred work w. -/
inductive TEv where
  | schedState
  | schedHtml
  | fireState (w : List TOp)
  | fireHtml (w : List TOp)

/-- One step of the timer system.  A fire event does nothing when no
timeout is outstanding (the host never fires a timer that was not
armed); otherwise the callback clears the pending flag first, consumes
the outstanding timeout, and only then runs the deferred work. -/
def stepTEv (t : Timers) : TEv → Timers
  | TEv.schedState => schedStateStep t
  | TEv.schedHtml => schedHtmlStep t
  | TEv.fireState w =>
    if t.stateOutstanding = 0 then t
    else runWork w { t with stateBroadcastTimer := false, stateOutstanding := t.stateOutstanding - 1 }
  | TEv.fireHtml w =>
    if t.html5Outstanding = 0 then t
    else runWork w { t with html5ApplyTimer := false, html5Outstanding := t.html5Outstanding - 1 }

/-- The debounce invariant: each timer has at most one outstanding
timeout, and the pending flag is set exactly while one is
outstanding. -/
def TimersInv (t : Timers) : Prop :=
  t.stateOutstanding ≤ 1 ∧ (t.stateBroadcastTimer = true ↔ t.stateOutstanding = 1) ∧
  t.html5Outstanding ≤ 1 ∧ (t.html5ApplyTimer = true ↔ t.html5Outstanding = 1)

/-! State-broadcast relay model (content script, secure-channel
variant).  broadcastAudioState in the engine dispatches the serialized
snapshot unconditionally; the content-script state listener computes
the structural signature of each received snapshot and forwards it to
the extension only when it differs from the last forwarded one. -/

/-- The body of the injectorEvents.state listener of the content
script, acting on (lastAudioStateSignature, messages forwarded so far):
a snapshot whose signature equals the stored one is dropped, otherwise
the signature is stored and the snapshot forwarded. -/
def relayStep (acc : String × List String) (sig : String) : String × List String :=
  if sig = acc.1 then acc else (sig, acc.2 ++ [sig])

/-- All snapshots the extension receives when the engine dispatches the
given sequence of serialized snapshots, starting from the initial empty
lastAudioStateSignature. -/
def relayAll (sigs : List String) : List String :=
  (sigs.foldl relayStep ("", [])).2

/-! Secure-channel command handler (the injectorEvents.command
listener).  The detail of a command event is a string that the host
JSON.parse either decodes to a JSON value or rejects; the decode
outcome is the input of the model (none models a parse exception). -/

/-- A decoded JSON value. -/
inductive JValue where
  | jnull
  | jbool (b : Bool)
  | jnum (q : ℚ)
  | jstr (s : String)
  | jarr (elems : List JValue)
  | jobj (fields : List (String × JValue))

/-- JavaScript truthiness of a decoded value. -/
def jsTruthy : JValue → Bool
  | JValue.jnull => false
  | JValue.jbool b => b
  | JValue.jnum q => q != 0
  | JValue.jstr s => s != ""
  | JValue.jarr _ => true
  | JValue.jobj _ => true

/-- Whether typeof yields the object tag for a decoded value (null and
arrays do; primitives do not). -/
def typeofIsObject : JValue → Bool
  | JValue.jnull => true
  | JValue.jarr _ => true
  | JValue.jobj _ => true
  | _ => false

/-- Property access payload.k: a field of an object, undefined (none)
otherwise. -/
def jget : JValue → String → Option JValue
  | JValue.jobj fields, k => (fields.find? (fun f => f.1 = k)).map (fun f => f.2)
  | _, _ => none

/-- Strict string equality payload.k === t for a possibly undefined
property. -/
def isTypeStr (v : Option JValue) (t : String) : Bool :=
  match v with
  | some (JValue.jstr s) => s = t
  | _ => false

/-- parseFloat applied to a property: a number parses to itself,
undefined and the values this engine never receives here are NaN
(none).  Numeric strings are a host-parsing detail not exercised by the
claims. -/
def jsParseFloat : Option JValue → Option ℚ
  | some (JValue.jnum q) => some q
  | _ => none

/-- String(payload.method or-else the both literal): a falsy or absent
method yields the both default, a string passes through, any other
truthy value stringifies to something that is not a valid method name
(setVolume then normalizes it to both). -/
def jsMethodStr : Option JValue → String
  | some v =>
    if jsTruthy v then
      match v with
      | JValue.jstr s => s
      | _ => "object-to-string"
    else "both"
  | none => "both"

/-- Observable effects of one command event. -/
inductive CmdEffect where
  | broadcast
deriving Repr, DecidableEq

/-- The injectorEvents.command listener of audio-injector.js, given the
outcome of decoding a string detail: a failed decode returns at once; a
falsy decode or one whose typeof is not object returns at once;
otherwise the set-volume, set-persist and get-state branches run, and
an object with any other type falls through with no effect. -/
def handleCommand (decoded : Option JValue) (s : EngineState) : EngineState × List CmdEffect :=
  match decoded with
  | none => (s, [])
  | some payload =>
    if !jsTruthy payload || !typeofIsObject payload then (s, [])
    else if isTypeStr (jget payload "type") "set-volume" then
      match jsParseFloat (jget payload "volume") with
      | some q => (setVolume q (jsMethodStr (jget payload "method")) s, [])
      | none => (s, [])
    else if isTypeStr (jget payload "type") "set-persist" then
      let pv := match jget payload "persist" with
        | some v => jsTruthy v
        | none => false
      let s1 : EngineState := { s with g := { s.g with persistVolume := pv } }
      if pv then (setVolume s1.g.currentVolume s1.g.currentMethod s1, []) else (s1, [])
    else if isTypeStr (jget payload "type") "get-state" then
      (s, [CmdEffect.broadcast])
    else (s, [])

/-! Codec and stream-type detection (the static pattern tables,
parseCodecFromMime, detectStreamType, detectMediaInfo and the snapshot
recomputation). -/

/-- Whether pat occurs as a contiguous run inside s, from the front. -/
def listStartsWith : List Char → List Char → Bool
  | [], _ => true
  | _ :: _, [] => false
  | p :: ps, c :: cs => p = c && listStartsWith ps cs

/-- Whether pat occurs as a contiguous run anywhere inside s. -/
def listHasSub (pat : List Char) : List Char → Bool
  | [] => pat.isEmpty
  | c :: cs => listStartsWith pat (c :: cs) || listHasSub pat cs

/-- JavaScript String.prototype.includes. -/
def jsIncludes (s pat : String) : Bool := listHasSub pat.toList s.toList

/-- JavaScript String.prototype.toLowerCase on the ASCII names used by
the pattern tables. -/
def jsToLower (s : String) : String := String.mk (s.data.map Char.toLower)

/-- One row of the codec pattern tables; exclude is empty when the
table row declares no exclusions. -/
structure CodecDef where
  name : String
  color : String
  patterns : List String
  exclude : List String
deriving Repr, DecidableEq

/-- The VIDEO_CODECS table of audio-injector.js. -/
def VIDEO_CODECS : List CodecDef := [
  { name := "H.264", color := "#4da6ff", patterns := ["avc1", "h264", "mp4v"], exclude := [] },
  { name := "H.265/HEVC", color := "#9b59b6", patterns := ["hev1", "hvc1", "h265", "hevc"], exclude := [] },
  { name := "VP9", color := "#2ecc71", patterns := ["vp9", "vp09"], exclude := [] },
  { name := "VP8", color := "#27ae60", patterns := ["vp8"], exclude := [] },
  { name := "AV1", color := "#e74c3c", patterns := ["av01", "av1"], exclude := [] }]

/-- The AUDIO_CODECS table of audio-injector.js. -/
def AUDIO_CODECS : List CodecDef := [
  { name := "AAC", color := "#f39c12", patterns := ["mp4a", "aac"], exclude := [] },
  { name := "MP3", color := "#e67e22", patterns := ["mp3", "mpeg"], exclude := ["mp4"] },
  { name := "Opus", color := "#1abc9c", patterns := ["opus"], exclude := [] },
  { name := "Vorbis", color := "#16a085", patterns := ["vorbis"], exclude := [] },
  { name := "FLAC", color := "#3498db", patterns := ["flac"], exclude := [] },
  { name := "Dolby", color := "#8e44ad", patterns := ["ac-3", "ec-3", "ac3"], exclude := [] }]

/-- One row of the STREAM_TYPES table. -/
structure StreamDef where
  type : String
  color : String
  patterns : List String
deriving Repr, DecidableEq

/-- The STREAM_TYPES table of audio-injector.js. -/
def STREAM_TYPES : List StreamDef := [
  { type := "HLS", color := "#e91e63", patterns := [".m3u8", "m3u8"] },
  { type := "DASH", color := "#673ab7", patterns := [".mpd", "dash"] },
  { type := "MP4", color := "#607d8b", patterns := [".mp4"] },
  { type := "WebM", color := "#009688", patterns := [".webm"] },
  { type := "MP3", color := "#e67e22", patterns := [".mp3"] },
  { type := "OGG", color := "#795548", patterns := [".ogg", ".oga"] },
  { type := "FLAC", color := "#3498db", patterns := [".flac"] },
  { type := "WAV", color := "#9e9e9e", patterns := [".wav"] },
  { type := "Blob/MSE", color := "#ff5722", patterns := ["blob:"] }]

/-- A detected codec entry (kind is video or audio). -/
structure CodecInfo where
  kind : String
  codec : String
  color : String
deriving Repr, DecidableEq

/-- The check closure of parseCodecFromMime: some pattern matches and
no exclusion matches. -/
def checkCodec (mime : String) (d : CodecDef) : Bool :=
  d.patterns.any (fun p => jsIncludes mime p) && !(d.exclude.any (fun e => jsIncludes mime e))

/-- parseCodecFromMime of audio-injector.js: null for a falsy MIME
string, otherwise the video-table matches followed by the audio-table
matches against the lowercased string. -/
def parseCodecFromMime (mimeType : String) : Option (List CodecInfo) :=
  if mimeType = "" then none
  else
    let mime := jsToLower mimeType
    let vids := VIDEO_CODECS.filterMap (fun d =>
      if checkCodec mime d then some { kind := "video", codec := d.name, color := d.color } else none)
    let auds := AUDIO_CODECS.filterMap (fun d =>
      if checkCodec mime d then some { kind := "audio", codec := d.name, color := d.color } else none)
    some (vids ++ auds)

/-- detectStreamType of audio-injector.js: null for a falsy URL, the
first matching STREAM_TYPES row, and the generic Stream label when no
row matches. -/
def detectStreamType (url : String) : Option (String × String) :=
  if url = "" then none
  else
    let urlLower := jsToLower url
    match STREAM_TYPES.find? (fun d => d.patterns.any (fun p => jsIncludes urlLower p)) with
    | some d => some (d.type, d.color)
    | none => some ("Stream", "#607d8b")

/-- A child source descriptor of a media element (a null getAttribute
result is none). -/
structure SourceTag where
  typeAttr : Option String
  srcAttr : Option String
deriving Repr, DecidableEq

/-- A media element as the detector sees it: tag name, resolved and
declared source URLs, child source descriptors, and whether its
srcObject is a MediaStream carrying a video track. -/
structure MediaTag where
  tagName : String
  currentSrc : String
  src : String
  sources : List SourceTag
  hasLiveVideoTrack : Bool
deriving Repr, DecidableEq

/-- The effective source URL el.currentSrc or-else el.src. -/
def effSrc (el : MediaTag) : String :=
  if el.currentSrc ≠ "" then el.currentSrc else el.src

/-- Accumulator of detectMediaInfo: the codecsSet of names already
seen, the foundCodecs list, and the streamType found so far. -/
structure DetectAcc where
  seen : List String
  found : List CodecInfo
  streamType : Option (String × String)
deriving Repr, DecidableEq

/-- The addCodec closure of detectMediaInfo: ignore a codec whose name
was already seen, otherwise record it. -/
def addCodecStep (acc : List String × List CodecInfo) (c : CodecInfo) : List String × List CodecInfo :=
  if acc.1.contains c.codec then acc else (c.codec :: acc.1, acc.2 ++ [c])

/-- The per-source body of detectMediaInfo: parse the declared MIME
type into codecs, then, only when no stream type was found yet, try the
declared source URL. -/
def detectSourceStep (acc : DetectAcc) (sEl : SourceTag) : DetectAcc :=
  let acc1 :=
    match sEl.typeAttr with
    | some t =>
      if t ≠ "" then
        match parseCodecFromMime t with
        | some parsed =>
          let p := parsed.foldl addCodecStep (acc.seen, acc.found)
          { acc with seen := p.1, found := p.2 }
        | none => acc
      else acc
    | none => acc
  match acc1.streamType with
  | some _ => acc1
  | none =>
    match sEl.srcAttr with
    | some u =>
      if u ≠ "" then
        match detectStreamType u with
        | some d => { acc1 with streamType := some d }
        | none => acc1
      else acc1
    | none => acc1

/-- detectMediaInfo of audio-injector.js: stream type from the
effective source URL, then from child sources while still unknown, then
a Live label for a MediaStream with a video track; when no codec was
found, inferred container codecs are guessed from the URL. -/
def detectMediaInfo (el : MediaTag) : Option (String × String) × List CodecInfo :=
  let src := effSrc el
  let streamType0 : Option (String × String) :=
    if src ≠ "" then
      match detectStreamType src with
      | some d => some d
      | none => none
    else none
  let acc := el.sources.foldl detectSourceStep
    { seen := [], found := [], streamType := streamType0 }
  let acc :=
    if el.hasLiveVideoTrack then
      match acc.streamType with
      | none => { acc with streamType := some ("Live", "#f44336") }
      | some _ => acc
    else acc
  let found :=
    if acc.found.isEmpty && src ≠ "" then
      let urlLower := jsToLower src
      if jsIncludes urlLower ".mp4" || jsIncludes urlLower "mp4" then
        [{ kind := "video", codec := "H.264*", color := "#4da6ff" },
         { kind := "audio", codec := "AAC*", color := "#f39c12" }]
      else if jsIncludes urlLower ".webm" then
        [{ kind := "video", codec := "VP9*", color := "#2ecc71" },
         { kind := "audio", codec := "Opus*", color := "#1abc9c" }]
      else if jsIncludes urlLower ".mp3" then
        [{ kind := "audio", codec := "MP3", color := "#e67e22" }]
      else if jsIncludes urlLower ".m3u8" then
        [{ kind := "video", codec := "H.264*", color := "#4da6ff" }]
      else []
    else acc.found
  (acc.streamType, found)

/-- The recomputed AudioState snapshot. -/
structure AudioStateSnap where
  hasWebAudio : Bool
  hasHTML5Audio : Bool
  hasHTML5Video : Bool
  webAudioContextCount : Nat
  html5AudioCount : Nat
  html5VideoCount : Nat
  detectedCodecs : List CodecInfo
  streamType : Option (String × String)
deriving Repr, DecidableEq

/-- The per-element body of the recomputation loop: bump the tag
counts, keep the first stream type found, and merge codecs that are new
to the cross-element seenCodecs set. -/
def recomputeStep (acc : AudioStateSnap × List String) (el : MediaTag) : AudioStateSnap × List String :=
  let st := acc.1
  let st :=
    if el.tagName = "AUDIO" then
      { st with hasHTML5Audio := true, html5AudioCount := st.html5AudioCount + 1 }
    else if el.tagName = "VIDEO" then
      { st with hasHTML5Video := true, html5VideoCount := st.html5VideoCount + 1 }
    else st
  let info := detectMediaInfo el
  let st :=
    match info.1, st.streamType with
    | some d, none => { st with streamType := some d }
    | _, _ => st
  info.2.foldl (fun (p : AudioStateSnap × List String) c =>
    if p.2.contains c.codec then p
    else ({ p.1 with detectedCodecs := p.1.detectedCodecs ++ [c] }, c.codec :: p.2))
    (st, acc.2)

/-- recomputeAudioState of audio-injector.js: liveCtxCount is the size
of the gainNodes map after pruning, hasSharedContext whether the shared
context exists and is not closed, els the media elements currently in
the document. -/
def recomputeAudioState (liveCtxCount : Nat) (hasSharedContext : Bool) (els : List MediaTag) : AudioStateSnap :=
  let count := liveCtxCount + (if hasSharedContext then 1 else 0)
  let base : AudioStateSnap :=
    { hasWebAudio := decide (count > 0)
      hasHTML5Audio := false
      hasHTML5Video := false
      webAudioContextCount := count
      html5AudioCount := 0
      html5VideoCount := 0
      detectedCodecs := []
      streamType := none }
  (els.foldl recomputeStep (base, [])).1

/-- Facts preserved by the globals transformations of one
setHTML5Volume pass: the stored volume, method and gainNodes map are
untouched, routing availability is stable, a shared gain never
disappears and can only be created holding the current volume, and a
live shared gain is left exactly as it was. -/
def GlobalsPres (g g1 : Globals) : Prop :=
  g1.currentVolume = g.currentVolume ∧
  g1.currentMethod = g.currentMethod ∧
  g1.ctxAvailable = g.ctxAvailable ∧
  g1.contextGains = g.contextGains ∧
  sharedOkB g1 = sharedOkB g ∧
  (g.sharedGain.isSome = true → g1.sharedGain.isSome = true) ∧
  (g1.sharedGain = g.sharedGain ∨ g1.sharedGain = some g.currentVolume) ∧
  (∀ x, g.sharedGain = some x → g.sharedClosed = false → g1 = g)

/-! Concrete example states used by the witness and counterexample
theorems. -/

/-- A discovered, not yet routed, routable media element at 70 percent
native volume. -/
def exElem : MElem :=
  { volume := 7/10, routed := false, routable := true, sourcesCreated := 0 }

/-- Engine globals of a fresh page with a working AudioContext
constructor. -/
def exGlobals : Globals :=
  { currentVolume := 1, currentMethod := "both", persistVolume := false
    ctxAvailable := true, sharedGain := none, sharedClosed := false, contextGains := [] }

/-- Fresh engine state with one unrouted media element. -/
def exS : EngineState := { g := exGlobals, media := [exElem] }

/-- Engine state on a host without any AudioContext constructor, so
that every routing attempt fails. -/
def cexS : EngineState :=
  { g := { exGlobals with ctxAvailable := false }, media := [exElem] }

/-- Engine state with one live tracked page context whose gain
currently holds 5. -/
def cexS2 : EngineState :=
  { g := { exGlobals with contextGains := [(1, false, 5)] }, media := [] }

/-- A media element already routed through the shared boost graph. -/
def exRoutedElem : MElem :=
  { volume := 1, routed := true, routable := true, sourcesCreated := 1 }

/-- Engine state with a routed element and the shared gain boosted to
3 (300 percent). -/
def exS3 : EngineState :=
  { g := { exGlobals with sharedGain := some 3 }, media := [exRoutedElem] }

/-- The outcome of a first successful routing call on the fresh
state. -/
def exRouteOut : Globals × MElem × Bool := routeMediaThroughWebAudio exGlobals exElem

/-- A graph model with one running context 0 whose tracked gain is node
5 holding value 2. -/
def exGraph : GraphModel :=
  { ctxLife := [(0, CtxLife.running)], gainNodesG := [(0, 5)]
    gainVal := [(5, 2)], sharedGainVal := none }

/-- An audio element with a plain mp3 source. -/
def exTagMp3 : MediaTag :=
  { tagName := "AUDIO", currentSrc := "", src := "track.mp3"
    sources := [], hasLiveVideoTrack := false }

/-! Theorems. -/

/-- The forwarded signature always becomes the processed one: either
the snapshot was dropped because it already equals the stored
signature, or it was forwarded and stored. -/
theorem relayStep_fst (st : String × List String) (x : String) : (relayStep st x).1 = x := by
  unfold relayStep
  by_cases h : x = st.1
  · simp [h]
  · simp [h]

/-- Processing the same signature twice in a row changes nothing on the
second event. -/
theorem relayStep_self (st : String × List String) (x : String) :
    relayStep (relayStep st x) x = relayStep st x := by
  conv_lhs => rw [relayStep]
  rw [relayStep_fst st x]
  simp

/-- Invariant of the relay fold: the forwarded list never repeats a
signature in adjacent positions, given that the accumulator is
consistent (the stored signature is the last forwarded one, when any
was forwarded). -/
theorem relayFold_chain (sigs : List String) (l : String) (out : List String)
    (hch : List.Chain' (fun a b => a ≠ b) out)
    (hlast : out.getLast? = none ∨ out.getLast? = some l) :
    List.Chain' (fun a b => a ≠ b) ((sigs.foldl relayStep (l, out)).2) := by
  induction sigs generalizing l out with
  | nil => simpa using hch
  | cons x rest ih =>
    simp only [List.foldl_cons]
    by_cases h : x = l
    · have hstep : relayStep (l, out) x = (l, out) := by simp [relayStep, h]
      rw [hstep]
      exact ih l out hch hlast
    · have hstep : relayStep (l, out) x = (x, out ++ [x]) := by simp [relayStep, h]
      rw [hstep]
      refine ih x (out ++ [x]) ?_ (Or.inr (List.getLast?_concat out))
      rw [List.chain'_append]
      refine ⟨hch, List.chain'_singleton x, ?_⟩
      intro a ha b hb
      rcases hlast with hnone | hsome
      · rw [hnone] at ha
        cases ha
      · rw [hsome] at ha
        cases ha
        simp only [List.head?_cons, Option.mem_def, Option.some.injEq] at hb
        subst hb
        exact fun hxa => h (hxa ▸ rfl)

/-- C4: the state pipeline delivers a snapshot to the extension only
when its serialized signature differs from the last delivered one; for
any sequence of engine broadcasts (each dispatched unconditionally by
broadcastAudioState, including forced get-state broadcasts), the
delivered sequence never contains two consecutive structurally
identical snapshots, and appending a broadcast structurally identical
to the previous one delivers nothing new. -/
theorem C4_dedup_state_broadcast :
    (∀ sigs : List String, List.Chain' (fun a b => a ≠ b) (relayAll sigs)) ∧
    (∀ (sigs : List String) (x : String),
      relayAll (sigs ++ [x, x]) = relayAll (sigs ++ [x])) := by
  constructor
  · intro sigs
    exact relayFold_chain sigs "" [] (List.chain'_nil) (Or.inl rfl)
  · intro sigs x
    unfold relayAll
    have h2 : sigs ++ [x, x] = (sigs ++ [x]) ++ [x] := by simp
    rw [h2, List.foldl_append, List.foldl_append]
    simp only [List.foldl_cons, List.foldl_nil]
    rw [relayStep_self]

/-- C6: a connect call aimed at the real destination node of a tracked
context is redirected to the gain tracked for that context, unless the
calling node is that gain node itself, in which case it reaches the
real destination. -/
theorem C6_connect_redirect (gains : List (Nat × Nat)) (self dest : ANode) (gn : Nat)
    (hg : lookupGainNode gains self.ctxId = some gn)
    (hdest : dest.isDest = true) (_hsame : dest.ctxId = self.ctxId) :
    (self.nid ≠ gn → connectTarget gains self dest = gn) ∧
    (self.nid = gn → connectTarget gains self dest = dest.nid) := by
  unfold connectTarget
  rw [hg, hdest]
  constructor
  · intro h
    simp [h]
  · intro h
    simp [h]

/-- C6 witness: in a model with context 0 tracked to gain node 7, an
ordinary node 3 connecting to the destination node 9 of context 0 is
redirected to node 7, and the gain node itself reaches node 9. -/
theorem C6_connect_redirect_witness :
    connectTarget [(0, 7)] { nid := 3, ctxId := 0, isDest := false }
      { nid := 9, ctxId := 0, isDest := true } = 7 ∧
    connectTarget [(0, 7)] { nid := 7, ctxId := 0, isDest := false }
      { nid := 9, ctxId := 0, isDest := true } = 9 :=
  ⟨(C6_connect_redirect [(0, 7)] { nid := 3, ctxId := 0, isDest := false }
      { nid := 9, ctxId := 0, isDest := true } 7 rfl rfl rfl).1 (by decide),
   (C6_connect_redirect [(0, 7)] { nid := 7, ctxId := 0, isDest := false }
      { nid := 9, ctxId := 0, isDest := true } 7 rfl rfl rfl).2 rfl⟩

/-- C5: routing is idempotent.  After a successful routing call, a
second call on the resulting element changes neither the state nor the
element, reports success, the element is marked routed, and at most one
element source was created in total by the first call. -/
theorem C5_idempotent_routing (g g1 : Globals) (m m1 : MElem)
    (h : routeMediaThroughWebAudio g m = (g1, m1, true)) :
    routeMediaThroughWebAudio g1 m1 = (g1, m1, true) ∧ m1.routed = true ∧
    m1.sourcesCreated ≤ m.sourcesCreated + 1 := by
  unfold routeMediaThroughWebAudio at h
  by_cases hr : m.routed
  · simp only [hr, if_true, Prod.mk.injEq] at h
    obtain ⟨hg, hm, -⟩ := h
    subst hg
    subst hm
    refine ⟨?_, hr, Nat.le_succ _⟩
    unfold routeMediaThroughWebAudio
    simp [hr]
  · simp only [hr, if_false, Bool.false_eq_true] at h
    by_cases hok : (getSharedContext g).2
    · by_cases hrt : m.routable
      · simp only [hok, Bool.not_true, if_false, hrt, if_true, Prod.mk.injEq,
          Bool.false_eq_true] at h
        obtain ⟨hg, hm, -⟩ := h
        subst hg
        subst hm
        refine ⟨?_, rfl, le_refl _⟩
        unfold routeMediaThroughWebAudio
        simp
      · simp [hok, hrt] at h
    · simp [hok] at h

/-- C5 witness: routing the fresh unrouted element succeeds, and the
second routing call on the outcome is a no-op that still reports
success. -/
theorem C5_idempotent_routing_witness :
    routeMediaThroughWebAudio exRouteOut.1 exRouteOut.2.1 = (exRouteOut.1, exRouteOut.2.1, true) ∧
    exRouteOut.2.1.routed = true ∧
    exRouteOut.2.1.sourcesCreated ≤ exElem.sourcesCreated + 1 :=
  C5_idempotent_routing exGlobals exRouteOut.1 exElem exRouteOut.2.1 rfl

/-- Scheduling the state broadcast preserves the debounce invariant. -/
theorem schedStateStep_inv (t : Timers) (h : TimersInv t) : TimersInv (schedStateStep t) := by
  by_cases hf : t.stateBroadcastTimer
  · have heq : schedStateStep t = t := by
      unfold schedStateStep
      simp [hf]
    rw [heq]
    exact h
  · obtain ⟨h1, h2, h3, h4⟩ := h
    have h0 : t.stateOutstanding = 0 := by
      by_cases h1' : t.stateOutstanding = 1
      · exact absurd (h2.mpr h1') hf
      · omega
    have heq : schedStateStep t =
        { t with stateBroadcastTimer := true, stateOutstanding := t.stateOutstanding + 1 } := by
      unfold schedStateStep
      simp [hf]
    rw [heq]
    refine ⟨?_, ?_, h3, h4⟩
    · show t.stateOutstanding + 1 ≤ 1
      omega
    · show (true = true) ↔ t.stateOutstanding + 1 = 1
      simp [h0]

/-- Scheduling the html5 reapply preserves the debounce invariant. -/
theorem schedHtmlStep_inv (t : Timers) (h : TimersInv t) : TimersInv (schedHtmlStep t) := by
  by_cases hf : t.html5ApplyTimer
  · have heq : schedHtmlStep t = t := by
      unfold schedHtmlStep
      simp [hf]
    rw [heq]
    exact h
  · obtain ⟨h1, h2, h3, h4⟩ := h
    have h0 : t.html5Outstanding = 0 := by
      by_cases h1' : t.html5Outstanding = 1
      · exact absurd (h4.mpr h1') hf
      · omega
    have heq : schedHtmlStep t =
        { t with html5ApplyTimer := true, html5Outstanding := t.html5Outstanding + 1 } := by
      unfold schedHtmlStep
      simp [hf]
    rw [heq]
    refine ⟨h1, h2, ?_, ?_⟩
    · show t.html5Outstanding + 1 ≤ 1
      omega
    · show (true = true) ↔ t.html5Outstanding + 1 = 1
      simp [h0]

/-- Deferred work, being a sequence of schedule requests, preserves the
debounce invariant. -/
theorem runWork_inv (w : List TOp) (t : Timers) (h : TimersInv t) : TimersInv (runWork w t) := by
  induction w generalizing t with
  | nil => exact h
  | cons op rest ih =>
    unfold runWork at ih ⊢
    simp only [List.foldl_cons]
    cases op with
    | schedState => exact ih _ (schedStateStep_inv t h)
    | schedHtml => exact ih _ (schedHtmlStep_inv t h)

/-- Every timer-trace step preserves the debounce invariant. -/
theorem stepTEv_inv (t : Timers) (h : TimersInv t) (ev : TEv) : TimersInv (stepTEv t ev) := by
  cases ev with
  | schedState => exact schedStateStep_inv t h
  | schedHtml => exact schedHtmlStep_inv t h
  | fireState w =>
    unfold stepTEv
    by_cases h0 : t.stateOutstanding = 0
    · simp only [h0, if_true]
      exact h
    · simp only [h0, if_false]
      apply runWork_inv
      obtain ⟨h1, h2, h3, h4⟩ := h
      refine ⟨?_, ?_, h3, h4⟩
      · show t.stateOutstanding - 1 ≤ 1
        omega
      · show (false = true) ↔ t.stateOutstanding - 1 = 1
        simp only [Bool.false_eq_true, false_iff]
        omega
  | fireHtml w =>
    unfold stepTEv
    by_cases h0 : t.html5Outstanding = 0
    · simp only [h0, if_true]
      exact h
    · simp only [h0, if_false]
      apply runWork_inv
      obtain ⟨h1, h2, h3, h4⟩ := h
      refine ⟨h1, h2, ?_, ?_⟩
      · show t.html5Outstanding - 1 ≤ 1
        omega
      · show (false = true) ↔ t.html5Outstanding - 1 = 1
        simp only [Bool.false_eq_true, false_iff]
        omega

/-- C8: each debounce timer has at most one outstanding timeout along
every trace from engine load (the pending flag is set exactly while one
is outstanding); scheduling while the flag is set is a no-op; and a
firing callback is exactly one run of the deferred work on the state
whose pending flag was already cleared and whose timeout was already
consumed. -/
theorem C8_debounce_timers :
    (∀ evs : List TEv, TimersInv (evs.foldl stepTEv initTimers)) ∧
    (∀ t : Timers, t.stateBroadcastTimer = true → stepTEv t TEv.schedState = t) ∧
    (∀ t : Timers, t.html5ApplyTimer = true → stepTEv t TEv.schedHtml = t) ∧
    (∀ (t : Timers) (w : List TOp), t.stateOutstanding ≠ 0 →
      stepTEv t (TEv.fireState w) =
        runWork w { t with stateBroadcastTimer := false,
                           stateOutstanding := t.stateOutstanding - 1 }) ∧
    (∀ (t : Timers) (w : List TOp), t.html5Outstanding ≠ 0 →
      stepTEv t (TEv.fireHtml w) =
        runWork w { t with html5ApplyTimer := false,
                           html5Outstanding := t.html5Outstanding - 1 }) := by
  refine ⟨?_, ?_, ?_, ?_, ?_⟩
  · intro evs
    have hinit : TimersInv initTimers := by
      unfold TimersInv initTimers
      simp
    clear hinit
    have gen : ∀ (l : List TEv) (t : Timers), TimersInv t → TimersInv (l.foldl stepTEv t) := by
      intro l
      induction l with
      | nil => intro t h; exact h
      | cons e rest ih =>
        intro t h
        simp only [List.foldl_cons]
        exact ih _ (stepTEv_inv t h e)
    refine gen evs initTimers ?_
    unfold TimersInv initTimers
    simp
  · intro t h
    unfold stepTEv schedStateStep
    simp [h]
  · intro t h
    unfold stepTEv schedHtmlStep
    simp [h]
  · intro t w h
    unfold stepTEv
    simp [h]
  · intro t w h
    unfold stepTEv
    simp [h]

/-- C8 witness: a double schedule from load keeps the invariant, and a
schedule on a pending state timer is a no-op. -/
theorem C8_debounce_timers_witness :
    TimersInv ([TEv.schedState, TEv.schedState].foldl stepTEv initTimers) ∧
    stepTEv { stateBroadcastTimer := true, stateOutstanding := 1
              html5ApplyTimer := false, html5Outstanding := 0 } TEv.schedState =
      { stateBroadcastTimer := true, stateOutstanding := 1
        html5ApplyTimer := false, html5Outstanding := 0 } :=
  ⟨C8_debounce_timers.1 [TEv.schedState, TEv.schedState],
   C8_debounce_timers.2.1 _ rfl⟩

/-- C9: a command event whose string detail fails to decode, or decodes
to anything other than a JSON object, is dropped silently: the engine
state (volume, method, persist flag, routing state) is unchanged and no
broadcast effect is produced. -/
theorem C9_malformed_payload_dropped (decoded : Option JValue) (s : EngineState)
    (h : decoded = none ∨ ∃ v, decoded = some v ∧ ∀ fs, v ≠ JValue.jobj fs) :
    handleCommand decoded s = (s, []) := by
  rcases h with h | ⟨v, hv, hno⟩
  · subst h
    rfl
  · subst hv
    cases v with
    | jnull => rfl
    | jbool b => cases b <;> rfl
    | jnum q =>
      unfold handleCommand
      simp [typeofIsObject]
    | jstr str =>
      unfold handleCommand
      simp [typeofIsObject]
    | jarr elems =>
      unfold handleCommand
      simp [jsTruthy, typeofIsObject, jget, isTypeStr]
    | jobj fields => exact absurd rfl (hno fields)

/-- C9 witness: a detail that decodes to a bare string is dropped with
the fresh state unchanged and no broadcast. -/
theorem C9_malformed_payload_dropped_witness :
    handleCommand (some (JValue.jstr "oops")) exS = (exS, []) :=
  C9_malformed_payload_dropped (some (JValue.jstr "oops")) exS
    (Or.inr ⟨JValue.jstr "oops", rfl, fun _fs h => JValue.noConfusion h⟩)

/-- Setting the lifecycle entry of a known context id makes its
recorded lifecycle the new one. -/
theorem findSetLife (c : Nat) (l : CtxLife) (xs : List (Nat × CtxLife))
    (h : (xs.find? (fun e => e.1 = c)).isSome = true) :
    ((xs.map (fun e => if e.1 = c then (e.1, l) else e)).find?
      (fun e => e.1 = c)).map (fun e => e.2) = some l := by
  induction xs with
  | nil => simp at h
  | cons x rest ih =>
    by_cases hx : x.1 = c
    · simp only [List.map_cons, if_pos hx]
      rw [List.find?_cons_of_pos _ (by simpa using hx)]
      simp
    · simp only [List.map_cons, if_neg hx]
      rw [List.find?_cons_of_neg _ (by simpa using hx)]
      rw [List.find?_cons_of_neg _ (by simpa using hx)] at h
      exact ih h

/-- Looking up an untouched gain id is unaffected by a value write that
only touches other gain ids. -/
theorem lookupVal_map_untouched (gid : Nat) (v : ℚ) (keepAny : Nat → Bool)
    (hk : keepAny gid = false) (xs : List (Nat × ℚ)) :
    lookupVal (xs.map (fun gv => if keepAny gv.1 then (gv.1, v) else gv)) gid =
      lookupVal xs gid := by
  induction xs with
  | nil => rfl
  | cons x rest ih =>
    unfold lookupVal at ih ⊢
    by_cases hx : x.1 = gid
    · have hkx : keepAny x.1 = false := by rw [hx]; exact hk
      simp only [List.map_cons, hkx, Bool.false_eq_true, if_false]
      rw [List.find?_cons_of_pos _ (by simpa using hx),
        List.find?_cons_of_pos _ (by simpa using hx)]
    · by_cases hkx : keepAny x.1
      · simp only [List.map_cons, hkx, if_true]
        rw [List.find?_cons_of_neg _ (by simpa using hx),
          List.find?_cons_of_neg _ (by simpa using hx)]
        exact ih
      · simp only [List.map_cons, hkx, Bool.false_eq_true, if_false]
        rw [List.find?_cons_of_neg _ (by simpa using hx),
          List.find?_cons_of_neg _ (by simpa using hx)]
        exact ih

/-- Once no tracked association points at a gain id, a graph-volume
application or a prune neither writes that gain nor re-associates
it. -/
theorem applyGOp_untouched (mm : GraphModel) (gid : Nat)
    (hP : ∀ e ∈ mm.gainNodesG, e.2 ≠ gid) (op : GOp) :
    (∀ e ∈ (applyGOp mm op).gainNodesG, e.2 ≠ gid) ∧
    lookupVal (applyGOp mm op).gainVal gid = lookupVal mm.gainVal gid := by
  cases op with
  | prune =>
    refine ⟨?_, rfl⟩
    intro e he
    unfold applyGOp pruneClosedContexts at he
    simp only [List.mem_filter] at he
    exact hP e he.1
  | setVol v =>
    constructor
    · intro e he
      simp only [applyGOp, setWebAudioVolumeG, List.mem_filter] at he
      exact hP e he.1
    · simp only [applyGOp, setWebAudioVolumeG]
      refine lookupVal_map_untouched gid v
        (fun k => (mm.gainNodesG.filter (fun e => !ctxGone mm e.1)).any (fun e => e.2 = k)) ?_ mm.gainVal
      by_cases ha : (mm.gainNodesG.filter (fun e => !ctxGone mm e.1)).any (fun e => e.2 = gid)
      · exfalso
        simp only [List.any_eq_true] at ha
        obtain ⟨e, he, hse⟩ := ha
        simp only [List.mem_filter] at he
        exact hP e he.1 (by simpa using hse)
      · exact Bool.eq_false_iff.mpr ha

/-- C7: when a tracked context transitions to the closed state, the
statechange cleanup removes its context-to-gain association, and no
later sequence of graph-volume applications or prunes writes a new
value into the gain that had been tracked for it. -/
theorem C7_closed_context_pruned (m : GraphModel) (c gid : Nat)
    (_hmem : (c, gid) ∈ m.gainNodesG)
    (hlife : (lifeOf m c).isSome = true)
    (hinj : ∀ e ∈ m.gainNodesG, e.2 = gid → e.1 = c) :
    (∀ g2, (c, g2) ∉ (transitionCtx c CtxLife.closed m).gainNodesG) ∧
    (∀ ops : List GOp,
      lookupVal ((ops.foldl applyGOp (transitionCtx c CtxLife.closed m)).gainVal) gid =
        lookupVal m.gainVal gid) := by
  have hlife2 : lifeOf { m with ctxLife := (m.ctxLife.map (fun e => if e.1 = c then (e.1, CtxLife.closed) else e)) } c = some CtxLife.closed := by
    unfold lifeOf
    exact findSetLife c CtxLife.closed m.ctxLife (by
      unfold lifeOf at hlife
      simpa using hlife)
  have htrans : transitionCtx c CtxLife.closed m =
      { m with
        ctxLife := (m.ctxLife.map (fun e => if e.1 = c then (e.1, CtxLife.closed) else e)),
        gainNodesG := (m.gainNodesG.filter (fun e => e.1 ≠ c)) } := by
    unfold transitionCtx statechangeCleanup
    rw [if_pos hlife2]
  constructor
  · intro g2 hcmem
    rw [htrans] at hcmem
    simp only [List.mem_filter] at hcmem
    simp at hcmem
  · intro ops
    have hP : ∀ e ∈ (transitionCtx c CtxLife.closed m).gainNodesG, e.2 ≠ gid := by
      rw [htrans]
      intro e he
      simp only [List.mem_filter] at he
      intro hegid
      have := hinj e he.1 hegid
      rw [this] at he
      simp at he
    have hval : lookupVal (transitionCtx c CtxLife.closed m).gainVal gid =
        lookupVal m.gainVal gid := by
      rw [htrans]
    have gen : ∀ (l : List GOp) (mm : GraphModel),
        (∀ e ∈ mm.gainNodesG, e.2 ≠ gid) →
        lookupVal ((l.foldl applyGOp mm).gainVal) gid = lookupVal mm.gainVal gid := by
      intro l
      induction l with
      | nil => intro mm _; rfl
      | cons op rest ih =>
        intro mm hmm
        simp only [List.foldl_cons]
        have h1 := applyGOp_untouched mm gid hmm op
        rw [ih _ h1.1, h1.2]
    rw [gen ops _ hP, hval]

/-- C7 witness: after context 0 (tracked to gain node 5) closes, the
association is gone and a later setWebAudioVolume pass leaves gain node
5 holding its old value 2. -/
theorem C7_closed_context_pruned_witness :
    (0, 5) ∉ (transitionCtx 0 CtxLife.closed exGraph).gainNodesG ∧
    lookupVal (([GOp.setVol 7].foldl applyGOp
      (transitionCtx 0 CtxLife.closed exGraph)).gainVal) 5 = lookupVal exGraph.gainVal 5 :=
  ⟨(C7_closed_context_pruned exGraph 0 5 (by simp [exGraph]) (by simp [exGraph, lifeOf])
      (by simp [exGraph])).1 5,
   (C7_closed_context_pruned exGraph 0 5 (by simp [exGraph]) (by simp [exGraph, lifeOf])
      (by simp [exGraph])).2 [GOp.setVol 7]⟩

/-- The truthiness getSharedContext returns is the pure routing
availability of the pre-state. -/
theorem getSharedContext_snd (g : Globals) : (getSharedContext g).2 = sharedOkB g := by
  rcases hsg : g.sharedGain with _ | x <;> cases hcl : g.sharedClosed <;>
    cases hca : g.ctxAvailable <;>
    simp [getSharedContext, sharedOkB, hsg, hcl, hca]

/-- getSharedContext preserves the globals facts. -/
theorem getSharedContext_pres (g : Globals) : GlobalsPres g (getSharedContext g).1 := by
  rcases hsg : g.sharedGain with _ | x <;> cases hcl : g.sharedClosed <;>
    cases hca : g.ctxAvailable <;>
    simp [getSharedContext, GlobalsPres, sharedOkB, hsg, hcl, hca]

/-- When routing availability holds, getSharedContext leaves a shared
gain in place. -/
theorem getSharedContext_ok_some (g : Globals) (hok : sharedOkB g = true) :
    (getSharedContext g).1.sharedGain.isSome = true := by
  rcases hsg : g.sharedGain with _ | x <;> cases hcl : g.sharedClosed <;>
    cases hca : g.ctxAvailable <;>
    simp_all [getSharedContext, sharedOkB, hsg, hcl, hca]

/-- GlobalsPres is reflexive. -/
theorem GlobalsPres_refl (g : Globals) : GlobalsPres g g := by
  unfold GlobalsPres
  refine ⟨rfl, rfl, rfl, rfl, rfl, fun h => h, Or.inl rfl, fun x _ _ => rfl⟩

/-- GlobalsPres composes. -/
theorem GlobalsPres_trans {g g1 g2 : Globals}
    (h1 : GlobalsPres g g1) (h2 : GlobalsPres g1 g2) : GlobalsPres g g2 := by
  obtain ⟨a1, b1, c1, d1, e1, f1, o1, k1⟩ := h1
  obtain ⟨a2, b2, c2, d2, e2, f2, o2, k2⟩ := h2
  refine ⟨a2.trans a1, b2.trans b1, c2.trans c1, d2.trans d1, e2.trans e1,
    fun h => f2 (f1 h), ?_, ?_⟩
  · rcases o2 with h | h
    · rw [h]
      exact o1
    · rw [h, a1]
      exact Or.inr rfl
  · intro x hx hc
    have hg1 : g1 = g := k1 x hx hc
    rw [hg1] at k2
    exact k2 x hx hc

/-- Success flag of a routing attempt: already routed, or the shared
context is obtainable and the element source can be created. -/
theorem routeMedia_snd (g : Globals) (m : MElem) :
    (routeMediaThroughWebAudio g m).2.2 = (m.routed || (sharedOkB g && m.routable)) := by
  unfold routeMediaThroughWebAudio
  by_cases hr : m.routed
  · simp [hr]
  · have hsnd := getSharedContext_snd g
    by_cases hok : sharedOkB g
    · by_cases hrt : m.routable
      · simp [hr, hsnd, hok, hrt]
      · simp [hr, hsnd, hok, hrt]
    · simp [hr, hsnd, Bool.eq_false_iff.mpr hok]

/-- Element outcome of a routing attempt. -/
theorem routeMedia_elem (g : Globals) (m : MElem) :
    (routeMediaThroughWebAudio g m).2.1 =
      (if m.routed then m
       else if sharedOkB g && m.routable then
         { m with routed := true, sourcesCreated := m.sourcesCreated + 1, volume := 1 }
       else m) := by
  unfold routeMediaThroughWebAudio
  by_cases hr : m.routed
  · simp [hr]
  · have hsnd := getSharedContext_snd g
    by_cases hok : sharedOkB g
    · by_cases hrt : m.routable
      · simp [hr, hsnd, hok, hrt]
      · simp [hr, hsnd, hok, hrt]
    · simp [hr, hsnd, Bool.eq_false_iff.mpr hok]

/-- A routing attempt preserves the globals facts. -/
theorem routeMedia_pres (g : Globals) (m : MElem) :
    GlobalsPres g (routeMediaThroughWebAudio g m).1 := by
  unfold routeMediaThroughWebAudio
  by_cases hr : m.routed
  · simp only [hr, if_true]
    exact GlobalsPres_refl g
  · simp only [hr, Bool.false_eq_true, if_false]
    by_cases hok : (getSharedContext g).2
    · by_cases hrt : m.routable
      · simp only [hok, Bool.not_true, Bool.false_eq_true, if_false, hrt, if_true]
        exact getSharedContext_pres g
      · simp only [hok, Bool.not_true, Bool.false_eq_true, if_false, hrt]
        exact getSharedContext_pres g
    · simp only [Bool.eq_false_iff.mpr hok, Bool.not_false, if_true]
      exact getSharedContext_pres g

/-- A routing attempt on an unrouted element under routing availability
leaves a shared gain in place. -/
theorem routeMedia_creates (g : Globals) (m : MElem) (hr : m.routed = false)
    (hok : sharedOkB g = true) :
    (routeMediaThroughWebAudio g m).1.sharedGain.isSome = true := by
  unfold routeMediaThroughWebAudio
  have hsome := getSharedContext_ok_some g hok
  simp only [hr, Bool.false_eq_true, if_false]
  by_cases h2 : (getSharedContext g).2
  · by_cases hrt : m.routable
    · simp only [h2, Bool.not_true, Bool.false_eq_true, if_false, hrt, if_true]
      exact hsome
    · simp only [h2, Bool.not_true, Bool.false_eq_true, if_false, hrt]
      exact hsome
  · simp only [Bool.eq_false_iff.mpr h2, Bool.not_false, if_true]
    exact hsome

/-- Per-element outcome of the setHTML5Volume body is the derived
elemResult policy. -/
theorem setHTML5VolumeElem_media (v : ℚ) (g : Globals) (m : MElem) :
    (setHTML5VolumeElem v g m).2 = elemResult v g.currentMethod (sharedOkB g) m := by
  unfold setHTML5VolumeElem elemResult
  by_cases hr : m.routed
  · by_cases hm : g.currentMethod = "html5" <;> simp [hr, hm]
  · simp only [hr, Bool.false_eq_true, if_false]
    by_cases hcond : v > 1 ∨ g.currentMethod = "webaudio"
    · simp only [hcond, if_true]
      rw [routeMedia_snd, routeMedia_elem]
      simp only [hr, Bool.false_eq_true, if_false, Bool.false_or]
      by_cases hok2 : sharedOkB g && m.routable
      · simp [hok2]
      · simp [Bool.eq_false_iff.mpr hok2, Bool.eq_false_iff.mpr hr]
    · simp [hcond]

/-- The setHTML5Volume body preserves the globals facts. -/
theorem setHTML5VolumeElem_pres (v : ℚ) (g : Globals) (m : MElem) :
    GlobalsPres g (setHTML5VolumeElem v g m).1 := by
  unfold setHTML5VolumeElem
  by_cases hr : m.routed
  · by_cases hm : g.currentMethod = "html5"
    · simp only [hr, if_true, hm]
      exact GlobalsPres_refl g
    · simp only [hr, if_true, hm, Bool.false_eq_true, if_false]
      exact GlobalsPres_refl g
  · simp only [hr, Bool.false_eq_true, if_false]
    by_cases hcond : v > 1 ∨ g.currentMethod = "webaudio"
    · simp only [hcond, if_true]
      by_cases hs : (routeMediaThroughWebAudio g m).2.2
      · simp only [hs, if_true]
        exact routeMedia_pres g m
      · simp only [hs, Bool.false_eq_true, if_false]
        exact routeMedia_pres g m
    · simp only [hcond, if_false]
      exact GlobalsPres_refl g

/-- The setHTML5Volume body on an unrouted element that attempts
routing leaves a shared gain in place, when routing is available. -/
theorem setHTML5VolumeElem_creates (v : ℚ) (g : Globals) (m : MElem)
    (hr : m.routed = false) (hcond : v > 1 ∨ g.currentMethod = "webaudio")
    (hok : sharedOkB g = true) :
    (setHTML5VolumeElem v g m).1.sharedGain.isSome = true := by
  unfold setHTML5VolumeElem
  have hcr := routeMedia_creates g m hr hok
  simp only [hr, Bool.false_eq_true, if_false, hcond, if_true]
  by_cases hs : (routeMediaThroughWebAudio g m).2.2
  · simp only [hs, if_true]
    exact hcr
  · simp only [hs, Bool.false_eq_true, if_false]
    exact hcr

/-- The whole setHTML5Volume pass preserves the globals facts. -/
theorem setHTML5VolumeList_pres (v : ℚ) :
    ∀ (ms : List MElem) (g : Globals), GlobalsPres g (setHTML5VolumeList v g ms).1 := by
  intro ms
  induction ms with
  | nil =>
    intro g
    exact GlobalsPres_refl g
  | cons m rest ih =>
    intro g
    unfold setHTML5VolumeList
    exact GlobalsPres_trans (setHTML5VolumeElem_pres v g m) (ih _)

/-- The media list produced by one setHTML5Volume pass is the pointwise
elemResult policy at the initial method and routing availability. -/
theorem setHTML5VolumeList_media (v : ℚ) :
    ∀ (ms : List MElem) (g : Globals),
      (setHTML5VolumeList v g ms).2 = ms.map (elemResult v g.currentMethod (sharedOkB g)) := by
  intro ms
  induction ms with
  | nil =>
    intro g
    rfl
  | cons m rest ih =>
    intro g
    unfold setHTML5VolumeList
    simp only [List.map_cons]
    have hpres := setHTML5VolumeElem_pres v g m
    obtain ⟨-, hcm, -, -, hok, -⟩ := hpres
    rw [setHTML5VolumeElem_media, ih, hcm, hok]

/-- When the method attempts routing for every element and routing is
available, a pass over a list containing an unrouted element leaves a
shared gain in place. -/
theorem setHTML5VolumeList_creates (v : ℚ) :
    ∀ (ms : List MElem) (g : Globals), g.currentMethod = "webaudio" →
      sharedOkB g = true → (∃ m ∈ ms, m.routed = false) →
      (setHTML5VolumeList v g ms).1.sharedGain.isSome = true := by
  intro ms
  induction ms with
  | nil =>
    intro g _ _ hex
    simp at hex
  | cons m rest ih =>
    intro g hmeth hok hex
    unfold setHTML5VolumeList
    by_cases hr : m.routed
    · have hgg : setHTML5VolumeElem v g m = (g, (setHTML5VolumeElem v g m).2) := by
        unfold setHTML5VolumeElem
        by_cases hm : g.currentMethod = "html5"
        · simp [hr, hm]
        · simp [hr, hm]
      have hex2 : ∃ m2 ∈ rest, m2.routed = false := by
        rcases hex with ⟨m2, hm2, hm2r⟩
        rcases List.mem_cons.mp hm2 with heq | hmem
        · exfalso
          rw [heq] at hm2r
          rw [hm2r] at hr
          exact Bool.false_ne_true hr
        · exact ⟨m2, hmem, hm2r⟩
      rw [hgg]
      exact ih g hmeth hok hex2
    · have hsome := setHTML5VolumeElem_creates v g m
        (Bool.eq_false_iff.mpr hr) (Or.inr hmeth) hok
      have hpres := setHTML5VolumeList_pres v rest (setHTML5VolumeElem v g m).1
      obtain ⟨-, -, -, -, -, hmono, -⟩ := hpres
      exact hmono hsome

/-- The derived per-element outcome always leaves the native volume in
the unit interval. -/
theorem elemResult_bounds (v : ℚ) (method : String) (ok : Bool) (m : MElem) :
    0 ≤ (elemResult v method ok m).volume ∧ (elemResult v method ok m).volume ≤ 1 := by
  have hcl : 0 ≤ jsClamp01 v ∧ jsClamp01 v ≤ 1 := by
    refine ⟨le_min (by norm_num) (le_max_left 0 v), min_le_left 1 _⟩
  unfold elemResult
  by_cases hr : m.routed
  · by_cases hm : method = "html5" <;> simp [hr, hm, hcl.1, hcl.2]
  · by_cases hcond : v > 1 ∨ method = "webaudio"
    · by_cases hok : ok && m.routable <;>
        simp [hr, hcond, hok, Bool.eq_false_iff]
    · simp [hr, hcond, hcl.1, hcl.2]

/-- setVolume in GraphOnly mode: run the per-element pass at the
clamped level with method webaudio, then write every gain. -/
theorem setVolume_webaudio_eq (L : ℚ) (s : EngineState) :
    setVolume L "webaudio" s =
      { g := (setWebAudioVolume (max 0 (min 100 L))
          (setHTML5VolumeList (max 0 (min 100 L))
            { s.g with currentVolume := max 0 (min 100 L), currentMethod := "webaudio" }
            s.media).1),
        media := ((setHTML5VolumeList (max 0 (min 100 L))
          { s.g with currentVolume := max 0 (min 100 L), currentMethod := "webaudio" }
          s.media).2) } := by
  unfold setVolume setHTML5Volume
  simp

/-- setVolume in NativeOnly mode: neutralize every gain to 1, then run
the per-element pass at the clamped level with method html5. -/
theorem setVolume_html5_eq (L : ℚ) (s : EngineState) :
    setVolume L "html5" s =
      { g := ((setHTML5VolumeList (max 0 (min 100 L))
          (setWebAudioVolume 1
            { s.g with currentVolume := max 0 (min 100 L), currentMethod := "html5" })
          s.media).1),
        media := ((setHTML5VolumeList (max 0 (min 100 L))
          (setWebAudioVolume 1
            { s.g with currentVolume := max 0 (min 100 L), currentMethod := "html5" })
          s.media).2) } := by
  unfold setVolume setHTML5Volume
  simp

/-- setVolume in Both mode: write every gain at the clamped level, then
run the per-element pass with method both. -/
theorem setVolume_both_eq (L : ℚ) (s : EngineState) :
    setVolume L "both" s =
      { g := ((setHTML5VolumeList (max 0 (min 100 L))
          (setWebAudioVolume (max 0 (min 100 L))
            { s.g with currentVolume := max 0 (min 100 L), currentMethod := "both" })
          s.media).1),
        media := ((setHTML5VolumeList (max 0 (min 100 L))
          (setWebAudioVolume (max 0 (min 100 L))
            { s.g with currentVolume := max 0 (min 100 L), currentMethod := "both" })
          s.media).2) } := by
  unfold setVolume setHTML5Volume
  simp

/-- setVolume with an invalid method string behaves as Both. -/
theorem setVolume_other_eq (L : ℚ) (method : String) (s : EngineState)
    (hw : method ≠ "webaudio") (hh : method ≠ "html5") (hb : method ≠ "both") :
    setVolume L method s =
      { g := ((setHTML5VolumeList (max 0 (min 100 L))
          (setWebAudioVolume (max 0 (min 100 L))
            { s.g with currentVolume := max 0 (min 100 L), currentMethod := "both" })
          s.media).1),
        media := ((setHTML5VolumeList (max 0 (min 100 L))
          (setWebAudioVolume (max 0 (min 100 L))
            { s.g with currentVolume := max 0 (min 100 L), currentMethod := "both" })
          s.media).2) } := by
  unfold setVolume setHTML5Volume
  simp [hw, hh, hb]

/-- Whatever the method, the media list after setVolume is a pointwise
elemResult policy outcome at the entry-clamped level. -/
theorem setVolume_media_map (L : ℚ) (method : String) (s : EngineState) :
    ∃ meth2 ok, (setVolume L method s).media =
      s.media.map (elemResult (max 0 (min 100 L)) meth2 ok) := by
  by_cases hw : method = "webaudio"
  · subst hw
    rw [setVolume_webaudio_eq]
    exact ⟨_, _, setHTML5VolumeList_media _ s.media _⟩
  · by_cases hh : method = "html5"
    · subst hh
      rw [setVolume_html5_eq]
      exact ⟨_, _, setHTML5VolumeList_media _ s.media _⟩
    · by_cases hb : method = "both"
      · subst hb
        rw [setVolume_both_eq]
        exact ⟨_, _, setHTML5VolumeList_media _ s.media _⟩
      · rw [setVolume_other_eq L method s hw hh hb]
        exact ⟨_, _, setHTML5VolumeList_media _ s.media _⟩

/-- Composing the native clamp with the entry clamp of setVolume gives
the plain unit clamp of the requested level. -/
theorem jsClamp01_entry (L : ℚ) : jsClamp01 (max 0 (min 100 L)) = min 1 (max 0 L) := by
  unfold jsClamp01
  rw [← max_assoc, max_self, max_min_distrib_left,
    show max (0:ℚ) 100 = 100 by norm_num, ← min_assoc,
    show min (1:ℚ) 100 = 1 by norm_num]

/-- C1 counterexample: on a host with no AudioContext constructor,
applying level 1/2 with method webaudio (GraphOnly) to a discovered
unrouted element fails to route and sets the native volume to 1, while
the claim as stated demands clamp(1/2, 0, 1) = 1/2. -/
theorem C1_graphonly_counterexample :
    ((setVolume (1/2) "webaudio" cexS).media.map MElem.volume = [1]) ∧
    jsClamp01 (1/2) ≠ (1:ℚ) := by
  constructor
  · rw [setVolume_webaudio_eq]
    show (setHTML5VolumeList _ _ _).2.map MElem.volume = [1]
    rw [setHTML5VolumeList_media]
    have hok : sharedOkB { cexS.g with
        currentVolume := max 0 (min 100 (1/2)), currentMethod := "webaudio" } = false := rfl
    rw [show cexS.media = [exElem] from rfl]
    simp only [List.map_cons, List.map_nil, List.cons.injEq, and_true]
    rw [hok]
    unfold elemResult
    norm_num [exElem]
  · unfold jsClamp01
    norm_num [min_def, max_def]

/-- C1 (amended): with method webaudio (GraphOnly) at a level L in
[0, 100], every discovered element is handled by the policy map: an
already-routed element keeps native volume 1; an unrouted element is
route-attempted, on success it becomes routed with native volume 1 and
the shared gain carries L; on routing failure the native volume is set
to 1 (unity), not to clamp(L, 0, 1). -/
theorem C1_graphonly_routing (L : ℚ) (s : EngineState) (h0 : 0 ≤ L) (h1 : L ≤ 100) :
    ((setVolume L "webaudio" s).media =
      s.media.map (elemResult L "webaudio" (sharedOkB s.g))) ∧
    ((setVolume L "webaudio" s).g.sharedGain.isSome = true →
      (setVolume L "webaudio" s).g.sharedGain = some L) ∧
    ((∃ m ∈ s.media, m.routed = false) → sharedOkB s.g = true →
      (setVolume L "webaudio" s).g.sharedGain = some L) := by
  have hv : max 0 (min 100 L) = L := by rw [min_eq_right h1, max_eq_right h0]
  have heq := setVolume_webaudio_eq L s
  rw [hv] at heq
  rw [heq]
  set g0 : Globals := { s.g with currentVolume := L, currentMethod := "webaudio" } with hg0
  set G : Globals := (setHTML5VolumeList L g0 s.media).1 with hG
  have hmap : (setWebAudioVolume L G).sharedGain = G.sharedGain.map (fun _ => L) := rfl
  refine ⟨?_, ?_, ?_⟩
  · show (setHTML5VolumeList L g0 s.media).2 = _
    rw [setHTML5VolumeList_media]
    rfl
  · intro hsome
    show (setWebAudioVolume L G).sharedGain = some L
    rcases hsg : G.sharedGain with _ | x
    · exfalso
      have : (setWebAudioVolume L G).sharedGain = none := by rw [hmap, hsg]; rfl
      rw [this] at hsome
      simp at hsome
    · rw [hmap, hsg]
      rfl
  · intro hex hok
    have hsome : G.sharedGain.isSome = true :=
      setHTML5VolumeList_creates L s.media g0 rfl hok hex
    show (setWebAudioVolume L G).sharedGain = some L
    rcases hsg : G.sharedGain with _ | x
    · rw [hsg] at hsome
      simp at hsome
    · rw [hmap, hsg]
      rfl

/-- C1 witness: at level 3 (300 percent) in GraphOnly mode on the fresh
state with one unrouted routable element, the shared gain ends up
carrying exactly 3. -/
theorem C1_graphonly_routing_witness :
    (setVolume 3 "webaudio" exS).g.sharedGain = some 3 :=
  (C1_graphonly_routing 3 exS (by norm_num) (by norm_num)).2.2
    ⟨exElem, List.mem_singleton.mpr rfl, rfl⟩ rfl

/-- C2 counterexample: the engine clamps the requested level into
[0, 100] on entry, so at requested level 200 with method webaudio the
tracked context gain receives 100, not 200 as the claim as stated
demands. -/
theorem C2_clamp_laws_counterexample :
    (setVolume 200 "webaudio" cexS2).g.contextGains = [(1, false, (100:ℚ))] ∧
    (100:ℚ) ≠ 200 := by
  constructor
  · rw [setVolume_webaudio_eq]
    show (setWebAudioVolume (max 0 (min 100 200)) _).contextGains = _
    have hv : max 0 (min 100 (200:ℚ)) = 100 := by norm_num [min_def, max_def]
    rw [hv]
    rfl
  · norm_num

/-- C2 (amended): for every requested level L and every method, every
native volume written by setVolume lies in [0, 1]; when the method uses
the graph gain to carry the level (webaudio or both), every tracked
context gain and any shared gain receive exactly the entry-clamped
level max 0 (min 100 L), which equals L whenever 0 <= L <= 100. -/
theorem C2_clamp_laws (L : ℚ) (method : String) (s : EngineState) :
    (∀ m ∈ (setVolume L method s).media, 0 ≤ m.volume ∧ m.volume ≤ 1) ∧
    ((method = "webaudio" ∨ method = "both") →
      ((setVolume L method s).g.sharedGain.isSome = true →
        (setVolume L method s).g.sharedGain = some (max 0 (min 100 L))) ∧
      (∀ e ∈ (setVolume L method s).g.contextGains, e.2.2 = max 0 (min 100 L))) ∧
    (0 ≤ L → L ≤ 100 → max 0 (min 100 L) = L) := by
  refine ⟨?_, ?_, ?_⟩
  · intro m hm
    obtain ⟨meth2, ok, hmapm⟩ := setVolume_media_map L method s
    rw [hmapm] at hm
    obtain ⟨m0, hm0, rfl⟩ := List.mem_map.mp hm
    exact elemResult_bounds _ _ _ _
  · rintro (rfl | rfl)
    · rw [setVolume_webaudio_eq]
      set v : ℚ := max 0 (min 100 L) with hvdef
      set g0 : Globals := { s.g with currentVolume := v, currentMethod := "webaudio" } with hg0
      set G : Globals := (setHTML5VolumeList v g0 s.media).1 with hG
      have hmap : (setWebAudioVolume v G).sharedGain = G.sharedGain.map (fun _ => v) := rfl
      constructor
      · intro hsome
        show (setWebAudioVolume v G).sharedGain = some v
        rcases hsg : G.sharedGain with _ | x
        · exfalso
          have : (setWebAudioVolume v G).sharedGain = none := by rw [hmap, hsg]; rfl
          rw [this] at hsome
          simp at hsome
        · rw [hmap, hsg]
          rfl
      · intro e he
        have hcg : (setWebAudioVolume v G).contextGains = G.contextGains.filterMap
            (fun e => if e.2.1 then none else some (e.1, e.2.1, v)) := rfl
        rw [show (({ g := (setWebAudioVolume v G), media := ((setHTML5VolumeList v g0 s.media).2) } : EngineState)).g.contextGains = (setWebAudioVolume v G).contextGains from rfl, hcg] at he
        obtain ⟨a, ha, hfa⟩ := List.mem_filterMap.mp he
        by_cases ha2 : a.2.1
        · rw [if_pos ha2] at hfa
          cases hfa
        · rw [if_neg ha2] at hfa
          obtain rfl := Option.some.inj hfa
          rfl
    · rw [setVolume_both_eq]
      set v : ℚ := max 0 (min 100 L) with hvdef
      set g2 : Globals := setWebAudioVolume v
        { s.g with currentVolume := v, currentMethod := "both" } with hg2
      have hpres := setHTML5VolumeList_pres v s.media g2
      obtain ⟨-, -, -, hd, -, -, halt, -⟩ := hpres
      have hg2cv : g2.currentVolume = v := rfl
      have hg2sh : g2.sharedGain = s.g.sharedGain.map (fun _ => v) := rfl
      constructor
      · intro hsome
        show (setHTML5VolumeList v g2 s.media).1.sharedGain = some v
        rcases halt with h | h
        · rw [h, hg2sh]
          rcases hsg : s.g.sharedGain with _ | y
          · exfalso
            have h2 : (setHTML5VolumeList v g2 s.media).1.sharedGain = none := by
              rw [h, hg2sh, hsg]; rfl
            rw [show (({ g := ((setHTML5VolumeList v g2 s.media).1), media := ((setHTML5VolumeList v g2 s.media).2) } : EngineState)).g.sharedGain = (setHTML5VolumeList v g2 s.media).1.sharedGain from rfl, h2] at hsome
            simp at hsome
          · rfl
        · rw [h, hg2cv]
      · intro e he
        rw [show (({ g := ((setHTML5VolumeList v g2 s.media).1), media := ((setHTML5VolumeList v g2 s.media).2) } : EngineState)).g.contextGains = (setHTML5VolumeList v g2 s.media).1.contextGains from rfl, hd] at he
        have hcg : g2.contextGains =
            ({ s.g with currentVolume := v, currentMethod := "both" } : Globals).contextGains.filterMap
              (fun e => if e.2.1 then none else some (e.1, e.2.1, v)) := rfl
        rw [hcg] at he
        obtain ⟨a, ha, hfa⟩ := List.mem_filterMap.mp he
        by_cases ha2 : a.2.1
        · rw [if_pos ha2] at hfa
          cases hfa
        · rw [if_neg ha2] at hfa
          obtain rfl := Option.some.inj hfa
          rfl
  · intro h0 h1
    rw [min_eq_right h1, max_eq_right h0]

/-- C2 witness: at level 5 with method webaudio on the fresh state the
shared gain ends up created holding the entry-clamped level, and the
entry clamp is the identity on 5. -/
theorem C2_clamp_laws_witness :
    ((setVolume 5 "webaudio" exS).g.sharedGain = some (max 0 (min 100 5))) ∧
    max 0 (min 100 (5:ℚ)) = 5 :=
  ⟨((C2_clamp_laws 5 "webaudio" exS).2.1 (Or.inl rfl)).1 rfl,
   (C2_clamp_laws 5 "webaudio" exS).2.2 (by norm_num) (by norm_num)⟩

/-- C3: for an element already routed through the live shared boost
graph whose gain holds a boost above unity, switching to method html5
(NativeOnly) at level L writes 1 back into the shared gain and sets the
native volume of that element to clamp(L, 0, 1), so the old boost no
longer amplifies the audio. -/
theorem C3_nativeonly_neutralizes (L gval : ℚ) (s : EngineState) (i : Nat) (m : MElem)
    (hm : s.media[i]? = some m) (hrouted : m.routed = true)
    (hshared : s.g.sharedGain = some gval) (_hboost : 1 < gval)
    (hlive : s.g.sharedClosed = false) :
    ((setVolume L "html5" s).g.sharedGain = some 1) ∧
    ((setVolume L "html5" s).media[i]?.map MElem.volume = some (min 1 (max 0 L))) := by
  rw [setVolume_html5_eq]
  set v : ℚ := max 0 (min 100 L) with hvdef
  set g2 : Globals := setWebAudioVolume 1
    { s.g with currentVolume := v, currentMethod := "html5" } with hg2
  have hg2shared : g2.sharedGain = some 1 := by
    have h1 : g2.sharedGain = s.g.sharedGain.map (fun _ => (1:ℚ)) := rfl
    rw [h1, hshared]
    rfl
  have hg2closed : g2.sharedClosed = false := hlive
  have hpres := setHTML5VolumeList_pres v s.media g2
  obtain ⟨-, -, -, -, -, -, -, hkeep⟩ := hpres
  constructor
  · show (setHTML5VolumeList v g2 s.media).1.sharedGain = some 1
    rw [hkeep 1 hg2shared hg2closed, hg2shared]
  · show ((setHTML5VolumeList v g2 s.media).2)[i]?.map MElem.volume = some (min 1 (max 0 L))
    rw [setHTML5VolumeList_media, List.getElem?_map, hm]
    have hval : (elemResult v g2.currentMethod (sharedOkB g2) m).volume = jsClamp01 v := by
      unfold elemResult
      rw [hrouted]
      simp [show g2.currentMethod = "html5" from rfl]
    simp only [Option.map_some']
    rw [hval, hvdef, jsClamp01_entry]

/-- C3 witness: switching to html5 at level 2/5 on a state with a
routed element and shared gain 3 resets the gain to 1 and the native
volume to 2/5. -/
theorem C3_nativeonly_neutralizes_witness :
    ((setVolume (2/5) "html5" exS3).g.sharedGain = some 1) ∧
    ((setVolume (2/5) "html5" exS3).media[0]?.map MElem.volume =
      some (min 1 (max 0 (2/5)))) :=
  C3_nativeonly_neutralizes (2/5) 3 exS3 0 exRoutedElem rfl rfl rfl (by norm_num) rfl

/-- detectStreamType never returns null on a non-empty URL. -/
theorem detectStreamType_isSome (url : String) (h : url ≠ "") :
    (detectStreamType url).isSome = true := by
  unfold detectStreamType
  rw [if_neg h]
  rcases hfind : STREAM_TYPES.find?
      (fun d => d.patterns.any (fun p => jsIncludes (jsToLower url) p)) with _ | d
  · simp [hfind]
  · simp [hfind]

/-- The per-source detection step never discards a stream type already
found. -/
theorem detectSourceStep_keep (acc : DetectAcc) (sEl : SourceTag) (d : String × String)
    (h : acc.streamType = some d) : (detectSourceStep acc sEl).streamType = some d := by
  unfold detectSourceStep
  rcases hta : sEl.typeAttr with _ | t
  · simp [h]
  · by_cases ht : t = ""
    · simp [ht, h]
    · rcases hp : parseCodecFromMime t with _ | parsed
      · simp [ht, hp, h]
      · simp [ht, hp, h]

/-- The whole source loop never discards a stream type already
found. -/
theorem foldl_detectSourceStep_keep (sources : List SourceTag) :
    ∀ (acc : DetectAcc) (d : String × String), acc.streamType = some d →
      (sources.foldl detectSourceStep acc).streamType = some d := by
  induction sources with
  | nil => intro acc d h; exact h
  | cons sEl rest ih =>
    intro acc d h
    simp only [List.foldl_cons]
    exact ih _ d (detectSourceStep_keep acc sEl d h)

/-- An element with a non-empty effective source URL always detects a
stream type. -/
theorem detectMediaInfo_streamType (el : MediaTag) (h : effSrc el ≠ "") :
    ((detectMediaInfo el).1).isSome = true := by
  have hd := detectStreamType_isSome (effSrc el) h
  rcases hdo : detectStreamType (effSrc el) with _ | d
  · rw [hdo] at hd
    simp at hd
  · have hfold := foldl_detectSourceStep_keep el.sources
      { seen := [], found := [], streamType := some d } d rfl
    unfold detectMediaInfo
    simp only [ne_eq, h, not_false_eq_true, if_true, hdo]
    by_cases hl : el.hasLiveVideoTrack
    · simp [hl, hfold]
    · simp [hl, hfold]

/-- The codec-merging inner fold of the snapshot recomputation never
touches the stream type. -/
theorem codecFold_streamType (cs : List CodecInfo) :
    ∀ (p : AudioStateSnap × List String),
      ((cs.foldl (fun (p : AudioStateSnap × List String) c =>
        if p.2.contains c.codec then p
        else ({ p.1 with detectedCodecs := p.1.detectedCodecs ++ [c] }, c.codec :: p.2)) p).1).streamType
        = p.1.streamType := by
  induction cs with
  | nil => intro p; rfl
  | cons c rest ih =>
    intro p
    simp only [List.foldl_cons]
    rw [ih]
    by_cases hc : p.2.contains c.codec
    · rw [if_pos hc]
    · rw [if_neg hc]

/-- The tag-count update of the recomputation step never touches the
stream type. -/
theorem tagCount_streamType (el : MediaTag) (st : AudioStateSnap) :
    ((if el.tagName = "AUDIO" then
        { st with hasHTML5Audio := true, html5AudioCount := st.html5AudioCount + 1 }
      else if el.tagName = "VIDEO" then
        { st with hasHTML5Video := true, html5VideoCount := st.html5VideoCount + 1 }
      else st)).streamType = st.streamType := by
  by_cases ha : el.tagName = "AUDIO"
  · simp [ha]
  · by_cases hv : el.tagName = "VIDEO"
    · simp [ha, hv]
    · simp [ha, hv]

/-- The recomputation step keeps a stream type already found. -/
theorem recomputeStep_keep (acc : AudioStateSnap × List String) (el : MediaTag)
    (d : String × String) (h : acc.1.streamType = some d) :
    ((recomputeStep acc el).1).streamType = some d := by
  unfold recomputeStep
  rw [codecFold_streamType]
  rcases hdm : (detectMediaInfo el).1 with _ | d2
  · simp only [hdm]
    rw [tagCount_streamType, h]
  · simp only [hdm]
    rw [show ((if el.tagName = "AUDIO" then
        { acc.1 with hasHTML5Audio := true, html5AudioCount := acc.1.html5AudioCount + 1 }
      else if el.tagName = "VIDEO" then
        { acc.1 with hasHTML5Video := true, html5VideoCount := acc.1.html5VideoCount + 1 }
      else acc.1)).streamType = some d from (tagCount_streamType el acc.1).trans h]
    rw [tagCount_streamType, h]

/-- The recomputation step adopts the stream type of an element that
detects one, when none was found yet. -/
theorem recomputeStep_create (acc : AudioStateSnap × List String) (el : MediaTag)
    (d : String × String) (hnone : acc.1.streamType = none)
    (hdm : (detectMediaInfo el).1 = some d) :
    ((recomputeStep acc el).1).streamType = some d := by
  unfold recomputeStep
  rw [codecFold_streamType]
  simp only [hdm]
  rw [show ((if el.tagName = "AUDIO" then
      { acc.1 with hasHTML5Audio := true, html5AudioCount := acc.1.html5AudioCount + 1 }
    else if el.tagName = "VIDEO" then
      { acc.1 with hasHTML5Video := true, html5VideoCount := acc.1.html5VideoCount + 1 }
    else acc.1)).streamType = none from (tagCount_streamType el acc.1).trans hnone]

/-- Over the whole recomputation fold, a stream type is present as soon
as the accumulator has one or some remaining element will provide
one. -/
theorem recomputeFold_streamType (els : List MediaTag) :
    ∀ (acc : AudioStateSnap × List String),
      (acc.1.streamType.isSome = true ∨ ∃ el ∈ els, effSrc el ≠ "") →
      (((els.foldl recomputeStep acc).1).streamType).isSome = true := by
  induction els with
  | nil =>
    intro acc h
    rcases h with h | h
    · exact h
    · simp at h
  | cons el rest ih =>
    intro acc h
    simp only [List.foldl_cons]
    apply ih
    rcases h with h | hex
    · left
      rcases hsg : acc.1.streamType with _ | d
      · rw [hsg] at h
        simp at h
      · rw [recomputeStep_keep acc el d hsg]
        rfl
    · rcases hex with ⟨el2, hmem, hsrc⟩
      rcases List.mem_cons.mp hmem with heq | hmem2
      · left
        subst heq
        rcases hsg : acc.1.streamType with _ | d
        · have hsome := detectMediaInfo_streamType el2 hsrc
          rcases hdm : (detectMediaInfo el2).1 with _ | d2
          · rw [hdm] at hsome
            simp at hsome
          · rw [recomputeStep_create acc el2 d2 hsg hdm]
            rfl
        · rw [recomputeStep_keep acc el2 d hsg]
          rfl
      · right
        exact ⟨el2, hmem2, hsrc⟩

/-- C10: stream-type detection is total over non-empty source URLs —
when no row of the STREAM_TYPES table matches, the generic Stream label
is returned — and the recomputed snapshot carries a non-null streamType
whenever any discovered media element has a non-empty effective source
URL. -/
theorem C10_streamtype_total :
    (∀ url : String, url ≠ "" → (detectStreamType url).isSome = true) ∧
    (∀ url : String, url ≠ "" →
      (STREAM_TYPES.all
        (fun d2 => !(d2.patterns.any (fun p => jsIncludes (jsToLower url) p)))) = true →
      detectStreamType url = some ("Stream", "#607d8b")) ∧
    (∀ (n : Nat) (b : Bool) (els : List MediaTag),
      (∃ el ∈ els, effSrc el ≠ "") →
      (((recomputeAudioState n b els).streamType)).isSome = true) := by
  refine ⟨detectStreamType_isSome, ?_, ?_⟩
  · intro url h hall
    unfold detectStreamType
    rw [if_neg h]
    have hnone : STREAM_TYPES.find?
        (fun d => d.patterns.any (fun p => jsIncludes (jsToLower url) p)) = none := by
      rw [List.find?_eq_none]
      intro x hx
      have := (List.all_eq_true.mp hall) x hx
      simp only [Bool.not_eq_true'] at this
      simp [this]
    simp [hnone]
  · intro n b els hex
    unfold recomputeAudioState
    exact recomputeFold_streamType els _ (Or.inr hex)

/-- C10 witness: an mp3 URL detects a stream type, an unknown extension
falls back to the generic Stream label, and a snapshot over one audio
element with an mp3 source carries a non-null streamType. -/
theorem C10_streamtype_total_witness :
    (detectStreamType "track.mp3").isSome = true ∧
    detectStreamType "weird.xyz" = some ("Stream", "#607d8b") ∧
    (((recomputeAudioState 0 false [exTagMp3]).streamType)).isSome = true :=
  ⟨C10_streamtype_total.1 "track.mp3" (by decide),
   C10_streamtype_total.2.1 "weird.xyz" (by decide) (by decide),
   C10_streamtype_total.2.2 0 false [exTagMp3]
     ⟨exTagMp3, List.mem_singleton.mpr rfl, by decide⟩⟩

end Waveform
